import Mathlib

/-!
Verification of the TZE transaction-component builder
(zcash_primitives/src/transaction/components/tze/builder.rs).

The builder accumulates extension-governed inputs and outputs together
with per-input deferred witness computations, and later resolves those
computations against a finalized transaction context.

The embedding is shallow: Rust methods taking a mutable reference become
state-passing functions, the deferred FnOnce closures become plain Lean
functions from the context type, Result becomes Except, Option stays
Option, u32 becomes Nat, Vec<u8> becomes List Nat, and the bounded
Amount type becomes Int together with explicit range checks.
-/

namespace TzeSpec

/-- Modelled from the spec: the Amount type (a bounded signed integer)
is declared outside the given source file; per the spec it is a bounded
signed monetary value with checked arithmetic. -/
abbrev Amount := Int

/-- Modelled from the spec: the bound of the Amount range (MAX_MONEY,
the total monetary supply in zatoshis); the spec only requires Amount
to be a bounded signed integer. -/
def maxMoney : Int := 2100000000000000

/-- Modelled from the spec: an integer is representable as an Amount
when it lies within the bounded range. -/
def inRange (x : Int) : Prop := -maxMoney ≤ x ∧ x ≤ maxMoney

instance (x : Int) : Decidable (inRange x) := by
  unfold inRange
  infer_instance

/-- Modelled from the spec: the sign test used by add_output. -/
def Amount.is_negative (a : Amount) : Bool := a < 0

/-- Modelled from the spec: the checked summation of a sequence of
Amounts, which is absent when the sum overflows the Amount range. -/
def sumAmounts (xs : List Amount) : Option Amount :=
  if inRange xs.sum then some xs.sum else none

/-- Modelled from the spec: checked subtraction of Amounts, absent on
overflow of the Amount range. -/
def checkedSub (a b : Amount) : Option Amount :=
  if inRange (a - b) then some (a - b) else none

/-- Modelled from the spec: an OutPoint identifies a previously created
output; an opaque, equality-comparable reference. -/
structure OutPoint where
  txid : List Nat
  n : Nat
deriving DecidableEq, Repr

/-- A precondition guarding an output: extension identifier, mode, and
an opaque payload. Mirrors tze::Precondition as constructed by
add_output. -/
structure Precondition where
  extension_id : Nat
  mode : Nat
  payload : List Nat
deriving DecidableEq, Repr

/-- A TZE output: a value and the precondition guarding it. -/
structure TzeOut where
  value : Amount
  precondition : Precondition
deriving DecidableEq, Repr

/-- The witness declaration of an unauthorized input: extension
identifier and mode are declared, the payload is still absent. -/
structure UnauthWitness where
  extension_id : Nat
  mode : Nat
deriving DecidableEq, Repr

/-- An unauthorized TZE input: the outpoint being spent and the witness
declaration. -/
structure TzeIn where
  prevout : OutPoint
  witness : UnauthWitness
deriving DecidableEq, Repr

/-- Modelled from the spec: TzeIn construction (TzeIn::new is declared
outside the given source file); it records the outpoint and the declared
(extension_id, mode) with no payload. -/
def TzeIn.new (prevout : OutPoint) (extension_id : Nat) (mode : Nat) : TzeIn :=
  ⟨prevout, ⟨extension_id, mode⟩⟩

/-- Modelled from the spec: the opaque authorization payload produced by
resolving one signer (tze::AuthData wraps the payload bytes). -/
structure AuthData where
  data : List Nat
deriving DecidableEq, Repr

/-- The two error kinds of the builder. -/
inductive Error where
  | InvalidAmount : Error
  | WitnessModeMismatch : Nat → Nat → Error
deriving DecidableEq, Repr

/-- A signer: the consumed previous output paired with the deferred
witness computation, already wrapped to yield (mode, payload bytes). -/
structure TzeSigner (Ctx : Type) where
  prevout : TzeOut
  builder : Ctx → Except Error (Nat × List Nat)

/-- The TZE builder state: signers, inputs and outputs. -/
structure TzeBuilder (Ctx : Type) where
  signers : List (TzeSigner Ctx)
  vin : List TzeIn
  vout : List TzeOut

/-- An unauthorized bundle: the input and output sequences. -/
structure Bundle where
  vin : List TzeIn
  vout : List TzeOut
deriving DecidableEq, Repr

/-- TzeBuilder::empty. -/
def TzeBuilder.empty {Ctx : Type} : TzeBuilder Ctx :=
  ⟨[], [], []⟩

/-- TzeBuilder::add_input: appends an unauthorized input and, pairwise,
a signer wrapping the witness builder with the to-payload conversion.
The ToPayload trait method of the witness type W is passed explicitly as
to_payload. -/
def add_input {Ctx W : Type} (b : TzeBuilder Ctx) (extension_id : Nat) (mode : Nat)
    (op : OutPoint × TzeOut) (to_payload : W → Nat × List Nat)
    (witness_builder : Ctx → Except Error W) : TzeBuilder Ctx :=
  { b with
    vin := b.vin ++ [TzeIn.new op.1 extension_id mode]
    signers := b.signers ++
      [⟨op.2, fun ctx => (witness_builder ctx).map to_payload⟩] }

/-- TzeBuilder::add_output: rejects a negative value with InvalidAmount
(leaving the state unchanged), otherwise converts the guard to
(mode, payload) and appends a TzeOut. The ToPayload trait method of the
guard type G is passed explicitly as to_payload. -/
def add_output {Ctx G : Type} (b : TzeBuilder Ctx) (extension_id : Nat)
    (value : Amount) (guarded_by : G) (to_payload : G → Nat × List Nat) :
    Except Error Unit × TzeBuilder Ctx :=
  if Amount.is_negative value then
    (Except.error Error.InvalidAmount, b)
  else
    let mp := to_payload guarded_by
    (Except.ok (),
      { b with vout := b.vout ++ [⟨value, ⟨extension_id, mp.1, mp.2⟩⟩] })

/-- TzeBuilder::value_balance: checked sum of consumed previous-output
values minus checked sum of new-output values. -/
def value_balance {Ctx : Type} (b : TzeBuilder Ctx) : Option Amount := do
  let consumed ← sumAmounts (b.signers.map fun s => s.prevout.value)
  let produced ← sumAmounts (b.vout.map fun t => t.value)
  checkedSub consumed produced

/-- TzeBuilder::build: absent when both sequences are empty, otherwise a
bundle holding copies of the current input and output sequences. -/
def build {Ctx : Type} (b : TzeBuilder Ctx) : Option Bundle :=
  if b.vin.isEmpty && b.vout.isEmpty then
    none
  else
    some ⟨b.vin, b.vout⟩

/-- Resolution of one signer against the context: invoke the deferred
computation, compare the resolved mode with the declared mode of the
paired input, and wrap the payload as AuthData. Mirrors the body of the
closure mapped over the zipped signers and inputs in create_witnesses. -/
def resolveOne {Ctx : Type} (mtx : Ctx) (signer : TzeSigner Ctx) (tzein : TzeIn) :
    Except Error AuthData :=
  match signer.builder mtx with
  | Except.error e => Except.error e
  | Except.ok mp =>
    if mp.1 ≠ tzein.witness.mode then
      Except.error (Error.WitnessModeMismatch tzein.witness.mode mp.1)
    else
      Except.ok ⟨mp.2⟩

/-- Collecting the resolutions in input order with short-circuit on the
first error. Mirrors collect over Result in create_witnesses. -/
def resolveAll {Ctx : Type} (mtx : Ctx) :
    List (TzeSigner Ctx × TzeIn) → Except Error (List AuthData)
  | [] => Except.ok []
  | p :: rest =>
    match resolveOne mtx p.1 p.2 with
    | Except.error e => Except.error e
    | Except.ok a =>
      match resolveAll mtx rest with
      | Except.error e => Except.error e
      | Except.ok tail => Except.ok (a :: tail)

/-- TzeBuilder::create_witnesses: absent for the empty builder,
otherwise the resolutions of the zipped signers and inputs. -/
def create_witnesses {Ctx : Type} (b : TzeBuilder Ctx) (mtx : Ctx) :
    Except Error (Option (List AuthData)) :=
  if b.vin.isEmpty && b.vout.isEmpty then
    Except.ok none
  else
    match resolveAll mtx (b.signers.zip b.vin) with
    | Except.error e => Except.error e
    | Except.ok payloads => Except.ok (some payloads)

/-- A builder whose signers and inputs are given as one index-aligned
list of pairs, as add_input grows them. -/
def ofPairs {Ctx : Type} (l : List (TzeSigner Ctx × TzeIn)) (vout : List TzeOut) :
    TzeBuilder Ctx :=
  ⟨l.map Prod.fst, l.map Prod.snd, vout⟩

/-- One call of the mutating interface of the builder, instantiating
the witness and guard type parameters with the payload pair itself (the
identity ToPayload conversion), which covers every observable behavior
of the generic methods. -/
inductive BuilderOp (Ctx : Type) where
  | addInputOp (extension_id : Nat) (mode : Nat) (outpoint : OutPoint)
      (prevout : TzeOut) (witness_builder : Ctx → Except Error (Nat × List Nat)) :
      BuilderOp Ctx
  | addOutputOp (extension_id : Nat) (value : Amount) (guard_mode : Nat)
      (guard_payload : List Nat) : BuilderOp Ctx

/-- Apply one call to a builder state. -/
def applyOp {Ctx : Type} (b : TzeBuilder Ctx) : BuilderOp Ctx → TzeBuilder Ctx
  | BuilderOp.addInputOp e m o pv wb => add_input b e m (o, pv) id wb
  | BuilderOp.addOutputOp e v gm gp => (add_output b e v (gm, gp) id).2

/-- Apply a sequence of calls, in order, to a builder state. -/
def applyOps {Ctx : Type} (b : TzeBuilder Ctx) (ops : List (BuilderOp Ctx)) :
    TzeBuilder Ctx :=
  ops.foldl applyOp b

/-- The input sequence a sequence of calls declares: one unauthorized
input per add_input call, in call order. -/
def expectedVin {Ctx : Type} (ops : List (BuilderOp Ctx)) : List TzeIn :=
  ops.filterMap fun op =>
    match op with
    | BuilderOp.addInputOp e m o _ _ => some (TzeIn.new o e m)
    | BuilderOp.addOutputOp _ _ _ _ => none

/-- The output sequence a sequence of calls declares: one TzeOut per
successful (non-negative value) add_output call, in call order. -/
def expectedVout {Ctx : Type} (ops : List (BuilderOp Ctx)) : List TzeOut :=
  ops.filterMap fun op =>
    match op with
    | BuilderOp.addInputOp _ _ _ _ _ => none
    | BuilderOp.addOutputOp e v gm gp =>
      if Amount.is_negative v then none else some ⟨v, ⟨e, gm, gp⟩⟩

/-- The alignment invariant: the signer sequence and the input sequence
have equal length, so the zip in create_witnesses pairs the i-th signer
with the i-th input. -/
def aligned {Ctx : Type} (b : TzeBuilder Ctx) : Prop :=
  b.signers.length = b.vin.length

/-- A concrete call sequence: one input declaration followed by one
output declaration. -/
def sampleOps : List (BuilderOp Unit) :=
  [BuilderOp.addInputOp 1 2 ⟨[], 0⟩ ⟨5, ⟨0, 0, []⟩⟩ (fun _ => Except.ok (2, [])),
   BuilderOp.addOutputOp 3 7 4 [9]]

/-! Helper lemmas. -/

theorem zip_ofPairs {Ctx : Type} (l : List (TzeSigner Ctx × TzeIn)) (vout : List TzeOut) :
    ((ofPairs l vout).signers).zip ((ofPairs l vout).vin) = l := by
  induction l with
  | nil => rfl
  | cons p ps ih => simpa [ofPairs] using ih

theorem create_witnesses_ofPairs_cons {Ctx : Type} (mtx : Ctx)
    (l : List (TzeSigner Ctx × TzeIn)) (vout : List TzeOut) (h : l ≠ []) :
    create_witnesses (ofPairs l vout) mtx =
      match resolveAll mtx l with
      | Except.error e => Except.error e
      | Except.ok payloads => Except.ok (some payloads) := by
  unfold create_witnesses
  rw [zip_ofPairs]
  cases l with
  | nil => exact absurd rfl h
  | cons p ps => simp [ofPairs]

theorem resolveAll_prefix_error {Ctx : Type} (mtx : Ctx)
    (pre : List (TzeSigner Ctx × TzeIn)) (x : TzeSigner Ctx × TzeIn)
    (rest : List (TzeSigner Ctx × TzeIn)) (e : Error)
    (hpre : ∀ p ∈ pre, ∃ q, p.1.builder mtx = Except.ok (p.2.witness.mode, q))
    (hx : resolveOne mtx x.1 x.2 = Except.error e) :
    resolveAll mtx (pre ++ x :: rest) = Except.error e := by
  induction pre with
  | nil => simp [resolveAll, hx]
  | cons p ps ih =>
    obtain ⟨q, hq⟩ := hpre p (List.mem_cons_self p ps)
    have hrest := ih fun r hr => hpre r (List.mem_cons_of_mem p hr)
    simp [resolveAll, resolveOne, hq, hrest]

theorem resolveAll_all_ok {Ctx : Type} (mtx : Ctx)
    (l : List (TzeSigner Ctx × TzeIn)) (ps : List (List Nat))
    (hall : List.Forall₂
      (fun p q => p.1.builder mtx = Except.ok (p.2.witness.mode, q)) l ps) :
    resolveAll mtx l = Except.ok (ps.map AuthData.mk) := by
  induction hall with
  | nil => rfl
  | cons hpq htail ih => simp [resolveAll, resolveOne, hpq, ih]

/-! Theorems for the claims. -/

/-- C10: value_balance of the freshly created empty builder is a
present Amount equal to zero, not the absent result. -/
theorem value_balance_empty (Ctx : Type) :
    value_balance (TzeBuilder.empty : TzeBuilder Ctx) = some 0 := rfl

/-- C5: add_output with a negative value returns InvalidAmount and
leaves the whole builder state (outputs included) unchanged, so the
builder remains usable. -/
theorem add_output_negative {Ctx G : Type} (b : TzeBuilder Ctx) (extension_id : Nat)
    (value : Amount) (guarded_by : G) (to_payload : G → Nat × List Nat)
    (h : Amount.is_negative value = true) :
    add_output b extension_id value guarded_by to_payload =
      (Except.error Error.InvalidAmount, b) := by
  simp [add_output, h]

/-- Witness for C5 at a concrete negative value. -/
theorem add_output_negative_witness :
    add_output (TzeBuilder.empty : TzeBuilder Unit) 7 (-5) ((3, [1]) : Nat × List Nat) id =
      (Except.error Error.InvalidAmount, TzeBuilder.empty) :=
  add_output_negative TzeBuilder.empty 7 (-5) (3, [1]) id (by decide)

/-- C7: create_witnesses returns the successful absent result exactly
when the builder has no inputs and no outputs, and the empty builder
never yields an empty-but-present sequence. -/
theorem create_witnesses_empty_iff {Ctx : Type} (b : TzeBuilder Ctx) (mtx : Ctx) :
    (create_witnesses b mtx = Except.ok none ↔ b.vin = [] ∧ b.vout = []) ∧
    (b.vin = [] ∧ b.vout = [] →
      create_witnesses b mtx ≠ Except.ok (some [])) := by
  obtain ⟨sg, vin, vout⟩ := b
  cases vin with
  | nil =>
    cases vout with
    | nil => simp [create_witnesses]
    | cons o os =>
      simp only [create_witnesses]
      cases hr : resolveAll mtx (List.zip sg []) <;> simp [hr]
  | cons i is =>
    cases vout with
    | nil =>
      simp only [create_witnesses]
      cases hr : resolveAll mtx (List.zip sg (i :: is)) <;> simp [hr]
    | cons o os =>
      simp only [create_witnesses]
      cases hr : resolveAll mtx (List.zip sg (i :: is)) <;> simp [hr]

/-- Witness for C7: the empty builder does not yield an empty-but-
present sequence. -/
theorem create_witnesses_empty_iff_witness :
    create_witnesses (TzeBuilder.empty : TzeBuilder Unit) () ≠ Except.ok (some []) :=
  (create_witnesses_empty_iff TzeBuilder.empty ()).2 ⟨rfl, rfl⟩

/-- C9: build does not mutate the builder (it is a pure function of the
state in this embedding, matching the shared-reference receiver in the
source), so two calls with no intervening mutation return identical
results, and any present bundle holds exactly the current input and
output sequences. -/
theorem build_unchanged {Ctx : Type} (b : TzeBuilder Ctx) :
    build b = build b ∧
      ∀ bu : Bundle, build b = some bu → bu.vin = b.vin ∧ bu.vout = b.vout := by
  refine ⟨rfl, ?_⟩
  intro bu h
  unfold build at h
  split at h
  · exact absurd h (by simp)
  · have hb := Option.some.inj h
    rw [← hb]
    exact ⟨rfl, rfl⟩

/-- Witness for C9 at a one-input builder. -/
theorem build_unchanged_witness :
    (Bundle.mk [TzeIn.new ⟨[], 0⟩ 1 2] []).vin =
        (TzeBuilder.mk [] [TzeIn.new ⟨[], 0⟩ 1 2] [] : TzeBuilder Unit).vin ∧
      (Bundle.mk [TzeIn.new ⟨[], 0⟩ 1 2] []).vout =
        (TzeBuilder.mk [] [TzeIn.new ⟨[], 0⟩ 1 2] [] : TzeBuilder Unit).vout :=
  (build_unchanged (TzeBuilder.mk [] [TzeIn.new ⟨[], 0⟩ 1 2] [])).2
    (Bundle.mk [TzeIn.new ⟨[], 0⟩ 1 2] []) rfl

/-- C4: value_balance equals the integer sum of consumed values minus
the integer sum of output values exactly when both sums and the
difference lie in the Amount range, and is absent otherwise; in
particular consumed values [50, 50] with outputs [30] yield 70. -/
theorem value_balance_spec :
    (∀ (Ctx : Type) (b : TzeBuilder Ctx),
      value_balance b =
        if inRange ((b.signers.map fun s => s.prevout.value).sum) ∧
            inRange ((b.vout.map fun t => t.value).sum) ∧
            inRange ((b.signers.map fun s => s.prevout.value).sum -
              (b.vout.map fun t => t.value).sum) then
          some ((b.signers.map fun s => s.prevout.value).sum -
            (b.vout.map fun t => t.value).sum)
        else none) ∧
    value_balance
      (⟨[⟨⟨50, ⟨0, 0, []⟩⟩, fun _ => Except.ok (0, [])⟩,
         ⟨⟨50, ⟨0, 0, []⟩⟩, fun _ => Except.ok (0, [])⟩],
        [], [⟨30, ⟨0, 0, []⟩⟩]⟩ : TzeBuilder Unit) = some 70 := by
  constructor
  · intro Ctx b
    by_cases h1 : inRange ((b.signers.map fun s => s.prevout.value).sum) <;>
      by_cases h2 : inRange ((b.vout.map fun t => t.value).sum) <;>
        by_cases h3 : inRange ((b.signers.map fun s => s.prevout.value).sum -
          (b.vout.map fun t => t.value).sum) <;>
      simp [value_balance, sumAmounts, checkedSub, h1, h2, h3]
  · rfl

/-- C1: if the inputs before position k (k = length of pre) resolve to
their declared modes and the k-th resolves to a mode m different from
its declared mode, create_witnesses fails with WitnessModeMismatch
(declared first, resolved second), for every continuation rest of later
inputs — so the result never depends on (hence never invokes) any later
deferred computation, and no partial AuthData sequence is returned. -/
theorem create_witnesses_mode_mismatch {Ctx : Type} (mtx : Ctx)
    (pre : List (TzeSigner Ctx × TzeIn)) (sk : TzeSigner Ctx) (ik : TzeIn)
    (rest : List (TzeSigner Ctx × TzeIn)) (vout : List TzeOut)
    (m : Nat) (pl : List Nat)
    (hpre : ∀ p ∈ pre, ∃ q, p.1.builder mtx = Except.ok (p.2.witness.mode, q))
    (hk : sk.builder mtx = Except.ok (m, pl))
    (hm : m ≠ ik.witness.mode) :
    create_witnesses (ofPairs (pre ++ (sk, ik) :: rest) vout) mtx =
      Except.error (Error.WitnessModeMismatch ik.witness.mode m) := by
  have hone : resolveOne mtx sk ik =
      Except.error (Error.WitnessModeMismatch ik.witness.mode m) := by
    simp [resolveOne, hk, hm]
  rw [create_witnesses_ofPairs_cons mtx _ vout (by simp)]
  rw [resolveAll_prefix_error mtx pre (sk, ik) rest _ hpre hone]

/-- Witness for C1: a matching zeroth input followed by an input
declared with mode 4 whose computation resolves to mode 5. -/
theorem create_witnesses_mode_mismatch_witness :
    create_witnesses
      (ofPairs
        [(⟨⟨1, ⟨0, 0, []⟩⟩, fun _ => Except.ok (2, [7])⟩, TzeIn.new ⟨[], 0⟩ 0 2),
         (⟨⟨1, ⟨0, 0, []⟩⟩, fun _ => Except.ok (5, [9])⟩, TzeIn.new ⟨[], 1⟩ 0 4)]
        [] : TzeBuilder Unit) () =
      Except.error (Error.WitnessModeMismatch 4 5) :=
  create_witnesses_mode_mismatch ()
    [(⟨⟨1, ⟨0, 0, []⟩⟩, fun _ => Except.ok (2, [7])⟩, TzeIn.new ⟨[], 0⟩ 0 2)]
    ⟨⟨1, ⟨0, 0, []⟩⟩, fun _ => Except.ok (5, [9])⟩ (TzeIn.new ⟨[], 1⟩ 0 4)
    [] [] 5 [9]
    (by
      intro p hp
      simp only [List.mem_singleton] at hp
      subst hp
      exact ⟨[7], rfl⟩)
    rfl (by decide)

/-- C6: if the inputs before position k resolve to their declared modes
and the k-th deferred computation fails with error e, create_witnesses
returns e unchanged, for every continuation rest of later inputs — so
no later deferred computation is invoked and evaluation is in input
order. -/
theorem create_witnesses_error_propagation {Ctx : Type} (mtx : Ctx)
    (pre : List (TzeSigner Ctx × TzeIn)) (sk : TzeSigner Ctx) (ik : TzeIn)
    (rest : List (TzeSigner Ctx × TzeIn)) (vout : List TzeOut) (e : Error)
    (hpre : ∀ p ∈ pre, ∃ q, p.1.builder mtx = Except.ok (p.2.witness.mode, q))
    (hk : sk.builder mtx = Except.error e) :
    create_witnesses (ofPairs (pre ++ (sk, ik) :: rest) vout) mtx =
      Except.error e := by
  have hone : resolveOne mtx sk ik = Except.error e := by
    simp [resolveOne, hk]
  rw [create_witnesses_ofPairs_cons mtx _ vout (by simp)]
  rw [resolveAll_prefix_error mtx pre (sk, ik) rest _ hpre hone]

/-- Witness for C6: the second deferred computation fails with
InvalidAmount, which is returned unchanged. -/
theorem create_witnesses_error_propagation_witness :
    create_witnesses
      (ofPairs
        [(⟨⟨1, ⟨0, 0, []⟩⟩, fun _ => Except.ok (2, [7])⟩, TzeIn.new ⟨[], 0⟩ 0 2),
         (⟨⟨1, ⟨0, 0, []⟩⟩, fun _ => Except.error Error.InvalidAmount⟩,
          TzeIn.new ⟨[], 1⟩ 0 4)]
        [] : TzeBuilder Unit) () =
      Except.error Error.InvalidAmount :=
  create_witnesses_error_propagation ()
    [(⟨⟨1, ⟨0, 0, []⟩⟩, fun _ => Except.ok (2, [7])⟩, TzeIn.new ⟨[], 0⟩ 0 2)]
    ⟨⟨1, ⟨0, 0, []⟩⟩, fun _ => Except.error Error.InvalidAmount⟩
    (TzeIn.new ⟨[], 1⟩ 0 4) [] [] Error.InvalidAmount
    (by
      intro p hp
      simp only [List.mem_singleton] at hp
      subst hp
      exact ⟨[7], rfl⟩)
    rfl

/-- C2: if every deferred computation succeeds with exactly its declared
mode and payload ps i, create_witnesses returns the present sequence of
one AuthData per input, holding the payloads in input order, for every
output sequence vout. -/
theorem create_witnesses_all_match {Ctx : Type} (mtx : Ctx)
    (l : List (TzeSigner Ctx × TzeIn)) (ps : List (List Nat)) (vout : List TzeOut)
    (hne : l ≠ [] ∨ vout ≠ [])
    (hall : List.Forall₂
      (fun p q => p.1.builder mtx = Except.ok (p.2.witness.mode, q)) l ps) :
    create_witnesses (ofPairs l vout) mtx =
      Except.ok (some (ps.map AuthData.mk)) := by
  cases l with
  | nil =>
    cases hall
    cases vout with
    | nil => exact absurd rfl (hne.resolve_left (by simp))
    | cons o os => simp [create_witnesses, ofPairs, resolveAll]
  | cons p l =>
    rw [create_witnesses_ofPairs_cons mtx _ vout (by simp)]
    rw [resolveAll_all_ok mtx _ ps hall]

/-- Witness for C2: two matching inputs with payloads [7] and [9]. -/
theorem create_witnesses_all_match_witness :
    create_witnesses
      (ofPairs
        [(⟨⟨1, ⟨0, 0, []⟩⟩, fun _ => Except.ok (2, [7])⟩, TzeIn.new ⟨[], 0⟩ 0 2),
         (⟨⟨1, ⟨0, 0, []⟩⟩, fun _ => Except.ok (4, [9])⟩, TzeIn.new ⟨[], 1⟩ 0 4)]
        [] : TzeBuilder Unit) () =
      Except.ok (some [AuthData.mk [7], AuthData.mk [9]]) :=
  create_witnesses_all_match ()
    [(⟨⟨1, ⟨0, 0, []⟩⟩, fun _ => Except.ok (2, [7])⟩, TzeIn.new ⟨[], 0⟩ 0 2),
     (⟨⟨1, ⟨0, 0, []⟩⟩, fun _ => Except.ok (4, [9])⟩, TzeIn.new ⟨[], 1⟩ 0 4)]
    [[7], [9]] []
    (Or.inl (by simp))
    (List.Forall₂.cons rfl (List.Forall₂.cons rfl List.Forall₂.nil))

theorem applyOps_vin {Ctx : Type} (b : TzeBuilder Ctx) (ops : List (BuilderOp Ctx)) :
    (applyOps b ops).vin = b.vin ++ expectedVin ops := by
  induction ops generalizing b with
  | nil => simp [applyOps, expectedVin]
  | cons op ops ih =>
    have h1 : applyOps b (op :: ops) = applyOps (applyOp b op) ops := rfl
    rw [h1, ih]
    cases op with
    | addInputOp e m o pv wb =>
      simp [applyOp, add_input, expectedVin, List.filterMap_cons]
    | addOutputOp e v gm gp =>
      by_cases hneg : Amount.is_negative v <;>
        simp [applyOp, add_output, hneg, expectedVin, List.filterMap_cons]

theorem applyOps_vout {Ctx : Type} (b : TzeBuilder Ctx) (ops : List (BuilderOp Ctx)) :
    (applyOps b ops).vout = b.vout ++ expectedVout ops := by
  induction ops generalizing b with
  | nil => simp [applyOps, expectedVout]
  | cons op ops ih =>
    have h1 : applyOps b (op :: ops) = applyOps (applyOp b op) ops := rfl
    rw [h1, ih]
    cases op with
    | addInputOp e m o pv wb =>
      simp [applyOp, add_input, expectedVout, List.filterMap_cons]
    | addOutputOp e v gm gp =>
      by_cases hneg : Amount.is_negative v <;>
        simp [applyOp, add_output, hneg, expectedVout, List.filterMap_cons]

/-- C3: for every sequence of add_input and add_output calls, build on
the resulting state is absent exactly when no input was declared and no
add_output call succeeded, and any present bundle holds exactly the
declared (outpoint, extension_id, mode) inputs in call order and the
(value, precondition) outputs of the successful add_output calls in
call order. -/
theorem build_spec {Ctx : Type} (ops : List (BuilderOp Ctx)) :
    (build (applyOps TzeBuilder.empty ops) = none ↔
      expectedVin ops = [] ∧ expectedVout ops = []) ∧
    ∀ bu : Bundle, build (applyOps TzeBuilder.empty ops) = some bu →
      bu.vin = expectedVin ops ∧ bu.vout = expectedVout ops := by
  have hvin : (applyOps TzeBuilder.empty ops).vin = expectedVin ops := by
    rw [applyOps_vin]
    rfl
  have hvout : (applyOps TzeBuilder.empty ops).vout = expectedVout ops := by
    rw [applyOps_vout]
    rfl
  constructor
  · unfold build
    split
    · rename_i hcond
      rw [Bool.and_eq_true, List.isEmpty_iff, List.isEmpty_iff] at hcond
      rw [← hvin, ← hvout]
      simp [hcond.1, hcond.2]
    · rename_i hcond
      rw [Bool.and_eq_true] at hcond
      constructor
      · intro h
        exact absurd h (by simp)
      · intro h
        rw [← hvin, ← hvout] at h
        exact absurd (by simp [h.1, h.2]) hcond
  · intro bu h
    unfold build at h
    split at h
    · exact absurd h (by simp)
    · have hb := Option.some.inj h
      rw [← hb, hvin, hvout]
      exact ⟨rfl, rfl⟩

/-- Witness for C3 at a concrete two-call sequence. -/
theorem build_spec_witness :
    (Bundle.mk [TzeIn.new ⟨[], 0⟩ 1 2] [⟨7, ⟨3, 4, [9]⟩⟩]).vin =
        expectedVin sampleOps ∧
      (Bundle.mk [TzeIn.new ⟨[], 0⟩ 1 2] [⟨7, ⟨3, 4, [9]⟩⟩]).vout =
        expectedVout sampleOps :=
  (build_spec sampleOps).2 (Bundle.mk [TzeIn.new ⟨[], 0⟩ 1 2] [⟨7, ⟨3, 4, [9]⟩⟩]) rfl

/-- C8: the signer and input sequences are index-aligned: the invariant
holds for the empty builder; add_input appends pairwise, the new input
recording the declared (outpoint, extension_id, mode) and the new
signer the consumed output with the wrapped witness builder, at the
same index; and add_output leaves both sequences untouched. The
remaining operations of the claim, value_balance and build, take the
state by shared reference in the source and are embedded as pure
functions of the state, so they preserve every state invariant
definitionally. -/
theorem builder_alignment_invariant :
    (∀ (Ctx : Type), aligned (TzeBuilder.empty : TzeBuilder Ctx)) ∧
    (∀ (Ctx W : Type) (b : TzeBuilder Ctx) (e m : Nat) (op : OutPoint × TzeOut)
        (tp : W → Nat × List Nat) (wb : Ctx → Except Error W),
      aligned b →
        aligned (add_input b e m op tp wb) ∧
        (add_input b e m op tp wb).vin = b.vin ++ [TzeIn.new op.1 e m] ∧
        (add_input b e m op tp wb).signers =
          b.signers ++ [⟨op.2, fun ctx => (wb ctx).map tp⟩]) ∧
    (∀ (Ctx G : Type) (b : TzeBuilder Ctx) (e : Nat) (v : Amount) (g : G)
        (tp : G → Nat × List Nat),
      aligned b →
        aligned (add_output b e v g tp).2 ∧
        (add_output b e v g tp).2.vin = b.vin ∧
        (add_output b e v g tp).2.signers = b.signers) := by
  refine ⟨?_, ?_, ?_⟩
  · intro Ctx
    rfl
  · intro Ctx W b e m op tp wb hb
    refine ⟨?_, rfl, rfl⟩
    simp [aligned, add_input] at hb ⊢
    exact hb
  · intro Ctx G b e v g tp hb
    by_cases hneg : Amount.is_negative v <;>
      exact ⟨by simpa [aligned, add_output, hneg] using hb,
        by simp [add_output, hneg], by simp [add_output, hneg]⟩

/-- Witness for C8: the invariant propagated through one add_input and
one add_output on the empty builder. -/
theorem builder_alignment_invariant_witness :
    aligned (add_input (TzeBuilder.empty : TzeBuilder Unit) 1 2
      (⟨[], 0⟩, ⟨5, ⟨0, 0, []⟩⟩) id (fun _ => Except.ok ((2, [7]) : Nat × List Nat))) ∧
      (add_input (TzeBuilder.empty : TzeBuilder Unit) 1 2
        (⟨[], 0⟩, ⟨5, ⟨0, 0, []⟩⟩) id
        (fun _ => Except.ok ((2, [7]) : Nat × List Nat))).vin =
        (TzeBuilder.empty : TzeBuilder Unit).vin ++ [TzeIn.new ⟨[], 0⟩ 1 2] ∧
      (add_input (TzeBuilder.empty : TzeBuilder Unit) 1 2
        (⟨[], 0⟩, ⟨5, ⟨0, 0, []⟩⟩) id
        (fun _ => Except.ok ((2, [7]) : Nat × List Nat))).signers =
        (TzeBuilder.empty : TzeBuilder Unit).signers ++
          [⟨⟨5, ⟨0, 0, []⟩⟩,
            fun _ => (Except.ok ((2, [7]) : Nat × List Nat)).map id⟩] :=
  builder_alignment_invariant.2.1 Unit (Nat × List Nat) TzeBuilder.empty 1 2
    (⟨[], 0⟩, ⟨5, ⟨0, 0, []⟩⟩) id (fun _ => Except.ok (2, [7])) rfl

end TzeSpec
